import Mathlib

/-!
Verification of the MSON-to-artifact rendering core of the aglio repository:
the inheritance resolver (`src/inherit.js`), the JSON Schema renderer
(`renderSchema`) and the example renderer (`src/example.js`).

The JavaScript values the renderers produce and consume are modelled by the
`Json` type below (JS `undefined` is `Json.undefined`; JS objects are ordered
association lists, matching JS string-key insertion order).  Refracted MSON
elements are modelled by `Element`: a JS object with fields `element`
(the kind string), optional `meta` and `attributes` objects, and a
polymorphic `content` payload.

The renderers are translated statement by statement from the source.  JS
exceptions (TypeError on reading a property of `undefined`, the
ReferenceError raised by the misspelled `combine` variable in `inherit.js`)
are modelled with `Except` and the `RErr.jsError` constructor.  Since the
reference-inlining loops and the named-type recursion of the source need
not terminate on cyclic symbol tables, the recursive functions take a fuel
argument; exhaustion is the distinct error `RErr.outOfFuel`, so theorems
about genuine JS failures are never about missing fuel.

A few byzantine corners of JS that no element produced by the upstream
parser can reach (iterating a string as an array of characters,
stringifying an array used as a property key) are marked `unmodeled` in
comments where they are collapsed to a nearby behaviour.
-/

/-- A JavaScript value as the renderers see it: JSON plus `undefined`.
Objects are ordered association lists (JS insertion order for string keys). -/
inductive Json where
  | null
  | undefined
  | bool (b : Bool)
  | num (n : Int)
  | str (s : String)
  | arr (items : List Json)
  | obj (fields : List (String × Json))

/-- JS object property read: first binding of the key (objects built by
`setField` keep keys unique, like real JS objects). -/
def lookupField : List (String × Json) → String → Option Json
  | [], _ => Option.none
  | (k2, v) :: rest, k => if k2 == k then some v else lookupField rest k

/-- JS object property write: an existing key is overwritten in place, a new
key is appended, matching JS insertion-order semantics. -/
def setField : List (String × Json) → String → Json → List (String × Json)
  | [], k, v => [(k, v)]
  | (k2, w) :: rest, k, v =>
    if k2 == k then (k, v) :: rest else (k2, w) :: setField rest k v

/-- Property read on an arbitrary JS value: only objects have fields. -/
def Json.getField : Json → String → Option Json
  | .obj fs, k => lookupField fs k
  | _, _ => Option.none

/-- Property write on an arbitrary JS value (assignment to a primitive is a
silent no-op in sloppy-mode JS). -/
def Json.setKey : Json → String → Json → Json
  | .obj fs, k, v => .obj (setField fs k v)
  | j, _, _ => j

/-- `x == null` in JS: true exactly for `null` and `undefined`. -/
def Json.isNullish : Json → Bool
  | .null => true
  | .undefined => true
  | _ => false

/-- JS truthiness of a value. -/
def Json.truthy : Json → Bool
  | .null => false
  | .undefined => false
  | .bool b => b
  | .num n => !(n == 0)
  | .str s => !(s == "")
  | .arr _ => true
  | .obj _ => true

/-- JS strict equality `===` restricted to the comparisons the source makes
(`indexOf` over arrays of member-key values): scalars compare by value,
distinct objects and arrays are never `===` (identity; the model never
compares a heap object with itself). -/
def jsStrictEq : Json → Json → Bool
  | .null, .null => true
  | .undefined, .undefined => true
  | .bool a, .bool b => a == b
  | .num a, .num b => a == b
  | .str a, .str b => a == b
  | _, _ => false

mutual
/-- Syntactic (order-sensitive) equality of modelled JS values. -/
def Json.eqb : Json → Json → Bool
  | .null, .null => true
  | .undefined, .undefined => true
  | .bool a, .bool b => a == b
  | .num a, .num b => a == b
  | .str a, .str b => a == b
  | .arr a, .arr b => Json.eqbList a b
  | .obj a, .obj b => Json.eqbFields a b
  | _, _ => false
termination_by a b => sizeOf a + sizeOf b

def Json.eqbList : List Json → List Json → Bool
  | [], [] => true
  | a :: as, b :: bs => Json.eqb a b && Json.eqbList as bs
  | _, _ => false
termination_by a b => sizeOf a + sizeOf b

def Json.eqbFields : List (String × Json) → List (String × Json) → Bool
  | [], [] => true
  | (k, v) :: rest, (k2, w) :: rest2 => k == k2 && Json.eqb v w && Json.eqbFields rest rest2
  | _, _ => false
termination_by a b => sizeOf a + sizeOf b
end

mutual
/-- Key-order-insensitive value comparison, the recursive part of Node's
`assert.deepEqual`: objects compare by key set (with values compared
recursively), `null` and `undefined` compare equal (loose `==`). -/
def Json.looseEqv : Json → Json → Bool
  | .null, .null => true
  | .null, .undefined => true
  | .undefined, .null => true
  | .undefined, .undefined => true
  | .bool a, .bool b => a == b
  | .num a, .num b => a == b
  | .str a, .str b => a == b
  | .arr a, .arr b => Json.looseEqvList a b
  | .obj a, .obj b => a.length == b.length && Json.looseEqvFields a b
  | _, _ => false
termination_by a b => sizeOf a + sizeOf b

def Json.looseEqvList : List Json → List Json → Bool
  | [], [] => true
  | a :: as, b :: bs => Json.looseEqv a b && Json.looseEqvList as bs
  | _, _ => false
termination_by a b => sizeOf a + sizeOf b

def Json.looseEqvFields : List (String × Json) → List (String × Json) → Bool
  | [], _ => true
  | (k, v) :: rest, gs => Json.looseEqvFind k v gs && Json.looseEqvFields rest gs
termination_by a b => sizeOf a + sizeOf b

def Json.looseEqvFind : String → Json → List (String × Json) → Bool
  | _, _, [] => false
  | k, v, (k2, w) :: rest =>
    if k == k2 then Json.looseEqv v w else Json.looseEqvFind k v rest
termination_by k v g => sizeOf v + sizeOf g
end

/-- Model of Node's `assert.deepEqual(l, r)` succeeding, as used by the
array-items collapsing in `renderSchema`.  Syntactically equal values are
deepEqual; otherwise the key-order-insensitive comparison decides. -/
def deepEqualJson (a b : Json) : Bool := Json.eqb a b || Json.looseEqv a b

/-- Content payload of a refracted element: absent, a scalar JS value, an
ordered list of child elements, a member key/value pair, or a reference
target object. -/
inductive ContentF (α : Type) where
  | cnone
  | scalar (v : Json)
  | list (items : List α)
  | memb (key value : α)
  | href (target : String)

/-- A refracted MSON element: `element` kind string, optional `meta` and
`attributes` JS objects, and the content payload. -/
inductive Element where
  | mk (kind : String) (metaObj attrObj : Option (List (String × Json)))
       (content : ContentF Element)

def Element.element : Element → String
  | .mk k _ _ _ => k

def Element.meta : Element → Option (List (String × Json))
  | .mk _ m _ _ => m

def Element.attributes : Element → Option (List (String × Json))
  | .mk _ _ a _ => a

def Element.content : Element → ContentF Element
  | .mk _ _ _ c => c

mutual
/-- The raw JS object an element is: used when a renderer passes an element
(or a list of elements) around as a plain value, e.g. `schema.enum.push(item.content)`. -/
def Element.toJson : Element → Json
  | .mk k m a c =>
    Json.obj ([("element", Json.str k)]
      ++ (match m with
          | some fs => [("meta", Json.obj fs)]
          | Option.none => [])
      ++ (match a with
          | some fs => [("attributes", Json.obj fs)]
          | Option.none => [])
      ++ (match c with
          | .cnone => []
          | .scalar v => [("content", v)]
          | .list es => [("content", Json.arr (elementsToJson es))]
          | .memb ke ve =>
            [("content", Json.obj [("key", Element.toJson ke), ("value", Element.toJson ve)])]
          | .href t => [("content", Json.obj [("href", Json.str t)])]))
termination_by e => sizeOf e

def elementsToJson : List Element → List Json
  | [] => []
  | e :: rest => Element.toJson e :: elementsToJson rest
termination_by es => sizeOf es
end

/-- The JS value stored in an element's `content` field. -/
def contentValue : ContentF Element → Json
  | .cnone => .undefined
  | .scalar v => v
  | .list es => .arr (elementsToJson es)
  | .memb ke ve => .obj [("key", Element.toJson ke), ("value", Element.toJson ve)]
  | .href t => .obj [("href", .str t)]

/-- JS truthiness of an element's `content` field (`if (element.content)`). -/
def ContentF.truthy : ContentF Element → Bool
  | .cnone => false
  | .scalar v => v.truthy
  | _ => true

/-- Whether the content value is a JS array (`content.push` is defined). -/
def ContentF.isList : ContentF Element → Bool
  | .list _ => true
  | _ => false

/-- `Array.from(content)` / `Array.from(content || [])`: arrays iterate to
their items; `undefined`-guarded and non-iterable array-like values give
`[]`.  (A string content would iterate to its characters; no element
produced by the parser carries one, unmodeled and collapsed to `[]`.) -/
def jsArrayFromContent : ContentF Element → List Element
  | .list es => es
  | _ => []

/-- The string a member-key element's content value coerces to when used as
a property key (`obj[key]`). -/
def jsKeyString : ContentF Element → String
  | .scalar (.str s) => s
  | .scalar (.num n) => toString n
  | .scalar (.bool b) => if b then "true" else "false"
  | .scalar .null => "null"
  | .scalar .undefined => "undefined"
  | .scalar (.arr _) => ""
  | .scalar (.obj _) => "[object Object]"
  | .cnone => "undefined"
  | .list _ => ""
  | .memb _ _ => "[object Object]"
  | .href _ => "[object Object]"

/-- The symbol table (`dataStructures`): type name to defining element. -/
def SymTab : Type := List (String × Element)

/-- `dataStructures[name]` property read. -/
def dsLookup : SymTab → String → Option Element
  | [], _ => Option.none
  | (k2, e) :: rest, k => if k2 == k then some e else dsLookup rest k

/-- Failure of a modelled render: a genuine JS exception carried as its
message, or exhaustion of the fuel that bounds the unguarded recursion. -/
inductive RErr where
  | outOfFuel
  | jsError (msg : String)

/-- `for key of Object.keys(src) do dst[key] = src[key]`: key-by-key
overwrite used by the meta/attributes merge of `inherit`. -/
def mergeFields : List (String × Json) → List (String × Json) → List (String × Json)
  | base, [] => base
  | base, (k, v) :: rest => mergeFields (setField base k v) rest

/-- The backward scan of `uniqueMembers` in `src/inherit.js`, loop state
made explicit: `iPlus1` is the loop index plus one (the JS loop runs while
`i >= 0`), `known` is the array of member-key values seen so far
(searched with `indexOf`, i.e. strict equality).  A duplicate key removes
`content[i]` with `splice(i, 1)` and `continue`s WITHOUT decrementing `i`,
exactly as the source does; reading `content[i]` past the array end models
the JS TypeError on `undefined.element`. -/
def uniqueGo : Nat → List Element → Nat → List Json → Except RErr (List Element)
  | 0, _, _, _ => .error .outOfFuel
  | _+1, content, 0, _ => .ok content
  | f+1, content, i+1, known =>
    match content.get? i with
    | Option.none => .error (.jsError "TypeError: cannot read element of undefined")
    | some el =>
      if el.element == "member" then
        match el.content with
        | .memb kEl _ =>
          let key := contentValue kEl.content
          if known.any (fun j => jsStrictEq j key) then
            uniqueGo f (content.eraseIdx i) (i+1) known
          else
            uniqueGo f content i (known ++ [key])
        | _ => .error (.jsError "TypeError: cannot read key of undefined")
      else
        uniqueGo f content i known

/-- `uniqueMembers(content)` of `src/inherit.js`.  Each loop step either
decrements the index or shrinks the list, so `2 * length + 2` fuel can
never run out; the explicit fuel only keeps the definition structural. -/
def uniqueMembers (content : List Element) : Except RErr (List Element) :=
  uniqueGo (2 * content.length + 2) content content.length []

/-- `combined.content` seen by the collection branch of the content merge:
`== null` content is first replaced by `[]`; a non-null non-array content
has no `push` method, so pushing into it throws. -/
def normalizeBaseContent : ContentF Element → Except RErr (List Element)
  | .list l => .ok l
  | .cnone => .ok []
  | .scalar v =>
    if v.isNullish then .ok []
    else .error (.jsError "TypeError: combined.content.push is not a function")
  | .memb _ _ => .error (.jsError "TypeError: combined.content.push is not a function")
  | .href _ => .error (.jsError "TypeError: combined.content.push is not a function")

/-- `module.exports` of `src/inherit.js`: have `element` inherit from
`base`.  The JSON round-trip deep copy of `base` is the identity on the
value level.  Meta and attributes are merged key-by-key (derived wins).
If either content is an array the contents are concatenated (base first)
and, when the first entry is a `member`, deduplicated by `uniqueMembers`;
otherwise the source's misspelled `combine.content = element.content`
throws a ReferenceError, modelled faithfully. -/
def inherit (base el : Element) : Except RErr Element :=
  let m := match el.meta with
    | some mf => some (mergeFields (base.meta.getD []) mf)
    | Option.none => base.meta
  let a := match el.attributes with
    | some af => some (mergeFields (base.attributes.getD []) af)
    | Option.none => base.attributes
  if el.content.truthy then
    if base.content.isList || el.content.isList then
      match normalizeBaseContent base.content with
      | .error e => .error e
      | .ok bl =>
        let merged := bl ++ jsArrayFromContent el.content
        match merged with
        | [] => .ok (Element.mk base.element m a (.list []))
        | h :: _ =>
          if h.element == "member" then
            match uniqueMembers merged with
            | .ok uniq => .ok (Element.mk base.element m a (.list uniq))
            | .error e => .error e
          else .ok (Element.mk base.element m a (.list merged))
    else .error (.jsError "ReferenceError: combine is not defined")
  else .ok (Element.mk base.element m a base.content)

/-- `typeAttr.indexOf(s) !== -1` where `typeAttr` is the value of
`attributes.typeAttributes`: array search is strict-equality membership, a
string searches for a substring, any other truthy value has no `indexOf`
and throws. -/
def typeAttrHas : Json → String → Except RErr Bool
  | .arr l, s => .ok (l.any (fun j => jsStrictEq j (.str s)))
  | .str t, s => .ok (decide ((t.splitOn s).length != 1))
  | _, _ => .error (.jsError "TypeError: typeAttr.indexOf is not a function")

/-- `defaultValue(type)` of `src/example.js` (the switch returns
`undefined` for any other type). -/
def defaultValue : String → Json
  | "boolean" => .bool true
  | "number" => .num 1
  | "string" => .str "Hello, world!"
  | _ => .undefined

/-- `items.reduce((l, r) => deepEqual(l, r) || r)` of the array case of
`renderSchema`: `deepEqual` returns `undefined` when equal (so `|| r`
yields `r`) and throws when not, which aborts the reduce; `none` models
the thrown AssertionError the source catches. -/
def collapseGo : Json → List Json → Option Json
  | acc, [] => some acc
  | acc, r :: rest => if deepEqualJson acc r then collapseGo r rest else Option.none

/-- The `array` case of `renderSchema`: a single child schema is used
directly, several identical (deepEqual) child schemas collapse to one, and
a failed reduce is caught and replaced by `anyOf` over all child schemas
in order. -/
def arrayItemsSchema (items : List Json) : Json :=
  let base := Json.obj [("type", Json.str "array")]
  match items with
  | [] => base
  | [x] => base.setKey "items" x
  | x :: y :: rest =>
    match collapseGo x (y :: rest) with
    | some j => base.setKey "items" j
    | Option.none => base.setKey "items" (Json.obj [("anyOf", Json.arr (x :: y :: rest))])

/-- State of the member-walking loop of `renderSchema`'s object case:
the `schema.properties` object, the `required` array, and the `allOf`
array once it has been created by a `select` member. -/
structure OState where
  props : List (String × Json)
  required : List String
  allOf : Option (List Json)

/-- One option's contribution inside the `select` handler: every key of
`optionSchema.properties` is pushed onto `exclusive` and copied into the
shared `schema.properties`. -/
def addOptionProps : List (String × Json) → List (String × Json) → List String →
    List (String × Json) × List String
  | [], props, excl => (props, excl)
  | (k, v) :: rest, props, excl => addOptionProps rest (setField props k v) (excl ++ [k])

/-- The `for option of Array.from(member.content)` loop of the `select`
handler: render each option, then walk its `properties` object (a missing
or non-object `properties` iterates zero keys, like JS `for..in`). -/
def selectFold (rS : Element → Except RErr Json) :
    List Element → List (String × Json) → List String →
    Except RErr (List (String × Json) × List String)
  | [], props, excl => .ok (props, excl)
  | o :: rest, props, excl =>
    match rS o with
    | .error e => .error e
    | .ok oSchema =>
      let pfs := match oSchema.getField "properties" with
        | some (.obj fs) => fs
        | _ => []
      let st := addOptionProps pfs props excl
      selectFold rS rest st.1 st.2

/-- The `while (i < properties.length)` loop of `renderSchema`'s
object/option case, as a worklist: a `ref` member is spliced out and
replaced in place by the referenced element's content (reading `.content`
of a failed lookup throws); a `select` member contributes its options'
properties and appends one `not required` clause to `allOf`; any other
member renders its value into `properties[key]` and processes
`description` and the `required`/`nullable` type attributes. -/
def schemaMembers (rS : Element → Except RErr Json) (ds : SymTab) :
    Nat → List Element → OState → Except RErr OState
  | _, [], st => .ok st
  | 0, _ :: _, _ => .error .outOfFuel
  | f+1, m :: rest, st =>
    if m.element == "ref" then
      match m.content with
      | .href t =>
        match dsLookup ds t with
        | some refEl =>
          match refEl.content with
          | .list l => schemaMembers rS ds f (l ++ rest) st
          | _ => .error (.jsError "TypeError: cannot read key of undefined")
        | Option.none => .error (.jsError "TypeError: cannot read content of undefined")
      | _ => .error (.jsError "TypeError: cannot read content of undefined")
    else if m.element == "select" then
      match m.content with
      | .list opts =>
        (match selectFold rS opts st.props [] with
        | .error e => .error e
        | .ok (props2, excl) =>
          let clause := Json.obj [("not", Json.obj [("required", Json.arr (excl.map Json.str))])]
          schemaMembers rS ds f rest
            { props := props2, required := st.required,
              allOf := some (st.allOf.getD [] ++ [clause]) })
      | .cnone => .error (.jsError "TypeError: member content is not iterable")
      | _ =>
        -- Array.from of a non-iterable truthy scalar yields no options
        let clause := Json.obj [("not", Json.obj [("required", Json.arr [])])]
        schemaMembers rS ds f rest
          { props := st.props, required := st.required,
            allOf := some (st.allOf.getD [] ++ [clause]) }
    else
      match m.content with
      | .memb kEl vEl =>
        (match rS vEl with
        | .error e => .error e
        | .ok pv =>
          let key := jsKeyString kEl.content
          let pv := match m.meta with
            | some mf =>
              (match lookupField mf "description" with
              | some d => if d.isNullish then pv else pv.setKey "description" d
              | Option.none => pv)
            | Option.none => pv
          let props := setField st.props key pv
          match m.attributes with
          | some af =>
            (match lookupField af "typeAttributes" with
            | some tv =>
              if tv.truthy then
                (match typeAttrHas tv "required" with
                | .error e => .error e
                | .ok hasReq =>
                  let required :=
                    if hasReq && !(st.required.contains key) then st.required ++ [key]
                    else st.required
                  match typeAttrHas tv "nullable" with
                  | .error e => .error e
                  | .ok hasNul =>
                    let props :=
                      if hasNul then
                        match lookupField props key with
                        | some cur =>
                          setField props key
                            (cur.setKey "type"
                              (Json.arr [(cur.getField "type").getD Json.undefined, Json.str "null"]))
                        | Option.none => props
                      else props
                    schemaMembers rS ds f rest
                      { props := props, required := required, allOf := st.allOf })
              else
                schemaMembers rS ds f rest
                  { props := props, required := st.required, allOf := st.allOf }
            | Option.none =>
              schemaMembers rS ds f rest
                { props := props, required := st.required, allOf := st.allOf })
          | Option.none =>
            schemaMembers rS ds f rest
              { props := props, required := st.required, allOf := st.allOf })
      | _ => .error (.jsError "TypeError: cannot read key of undefined")

/-- After the member loop: `schema.allOf` was inserted right after
`properties` when it was created, and `schema.required` is appended after
the loop when non-empty, giving this field order. -/
def objectSchemaOf (st : OState) : Json :=
  Json.obj ([("type", Json.str "object"), ("properties", Json.obj st.props)]
    ++ (match st.allOf with
        | some l => [("allOf", Json.arr l)]
        | Option.none => [])
    ++ (if st.required.isEmpty then []
        else [("required", Json.arr (st.required.map Json.str))]))

/-- The trailing `root.meta.description` step every `renderSchema` call
applies to its result. -/
def descStep (root : Element) (j : Json) : Json :=
  match root.meta with
  | some mf =>
    (match lookupField mf "description" with
    | some d => if d.isNullish then j else j.setKey "description" d
    | Option.none => j)
  | Option.none => j

/-- The trailing `nullable` type-widening step of `renderSchema`:
`schema.type = [schema.type, "null"]`, an absent `type` widening to the
JS `[undefined, "null"]`. -/
def nullableStep (root : Element) (j : Json) : Except RErr Json :=
  match root.attributes with
  | some af =>
    (match lookupField af "typeAttributes" with
    | some tv =>
      if tv.truthy then
        match typeAttrHas tv "nullable" with
        | .error e => .error e
        | .ok hasNul =>
          .ok (if hasNul then
                j.setKey "type" (Json.arr [(j.getField "type").getD Json.undefined, Json.str "null"])
              else j)
      else .ok j
    | Option.none => .ok j)
  | Option.none => .ok j

/-- Both post-switch steps of `renderSchema`, in source order. -/
def postSchema (root : Element) (j : Json) : Except RErr Json :=
  nullableStep root (descStep root j)

/-- `renderSchema(root, dataStructures)`, the JSON Schema generator, with
fuel bounding the named-type recursion and the ref-inlining loop. -/
def renderSchema : Nat → Element → SymTab → Except RErr Json
  | 0, _, _ => .error .outOfFuel
  | fuel+1, root, ds =>
    let core : Except RErr Json :=
      if root.element == "boolean" || root.element == "string" || root.element == "number" then
        let s := Json.obj [("type", Json.str root.element)]
        .ok (match root.attributes with
          | some af =>
            (match lookupField af "default" with
            | some d => if d.isNullish then s else s.setKey "default" d
            | Option.none => s)
          | Option.none => s)
      else if root.element == "enum" then
        .ok (Json.obj [("enum",
          Json.arr ((jsArrayFromContent root.content).map (fun it => contentValue it.content)))])
      else if root.element == "array" then
        match (jsArrayFromContent root.content).mapM (fun e => renderSchema fuel e ds) with
        | .error e => .error e
        | .ok items => .ok (arrayItemsSchema items)
      else if root.element == "object" || root.element == "option" then
        match root.content with
        | .list es =>
          (match schemaMembers (fun e => renderSchema fuel e ds) ds (fuel+1) es
              { props := [], required := [], allOf := Option.none } with
          | .error e => .error e
          | .ok st => .ok (objectSchemaOf st))
        | .cnone => .error (.jsError "TypeError: cannot read slice of undefined")
        | _ => .error (.jsError "TypeError: content has no slice")
      else
        match dsLookup ds root.element with
        | some refEl =>
          (match inherit refEl root with
          | .error e => .error e
          | .ok combined => renderSchema fuel combined ds)
        | Option.none => .ok (Json.obj [])
    match core with
    | .error e => .error e
    | .ok j => postSchema root j

/-- The `while (i < properties.length)` loop of `renderExample`'s object
case: `ref` members are spliced out and replaced by the referenced
element's content exactly as in the schema loop; a `select` member is
replaced, in the same iteration, by the first member of its first option
(`member.content[0].content[0]`); every surviving member stores
`renderExample(member.content.value)` under its key. -/
def exampleMembers (rE : Element → Except RErr Json) (ds : SymTab) :
    Nat → List Element → List (String × Json) → Except RErr (List (String × Json))
  | _, [], acc => .ok acc
  | 0, _ :: _, _ => .error .outOfFuel
  | f+1, m :: rest, acc =>
    if m.element == "ref" then
      match m.content with
      | .href t =>
        match dsLookup ds t with
        | some refEl =>
          match refEl.content with
          | .list l => exampleMembers rE ds f (l ++ rest) acc
          | _ => .error (.jsError "TypeError: cannot read key of undefined")
        | Option.none => .error (.jsError "TypeError: cannot read content of undefined")
      | _ => .error (.jsError "TypeError: cannot read content of undefined")
    else
      let m2 : Except RErr Element :=
        if m.element == "select" then
          match m.content with
          | .list (o1 :: _) =>
            (match o1.content with
            | .list (m1 :: _) => .ok m1
            | _ => .error (.jsError "TypeError: cannot read key of undefined"))
          | _ => .error (.jsError "TypeError: cannot read content 0 of undefined")
        else .ok m
      match m2 with
      | .error e => .error e
      | .ok m2 =>
        match m2.content with
        | .memb kEl vEl =>
          (match rE vEl with
          | .error e => .error e
          | .ok v => exampleMembers rE ds f rest (setField acc (jsKeyString kEl.content) v))
        | _ => .error (.jsError "TypeError: cannot read key of undefined")

/-- `renderExample(root, dataStructures)` of `src/example.js`, with fuel
bounding the named-type recursion and the ref-inlining loop.  An `enum`
unconditionally recurses into `root.content[0]`; reading `[0]` of an
absent content, or passing the `undefined` first entry of an empty list
into the recursive call, throws. -/
def renderExample : Nat → Element → SymTab → Except RErr Json
  | 0, _, _ => .error .outOfFuel
  | fuel+1, root, ds =>
    if root.element == "boolean" || root.element == "string" || root.element == "number" then
      .ok (match root.content with
        | .cnone => defaultValue root.element
        | .scalar v => if v.isNullish then defaultValue root.element else v
        | c => contentValue c)
    else if root.element == "enum" then
      match root.content with
      | .list (x :: _) => renderExample fuel x ds
      | _ => .error (.jsError "TypeError: cannot read element of undefined")
    else if root.element == "array" then
      match (jsArrayFromContent root.content).mapM (fun e => renderExample fuel e ds) with
      | .error e => .error e
      | .ok xs => .ok (Json.arr xs)
    else if root.element == "object" then
      match root.content with
      | .list es =>
        (match exampleMembers (fun e => renderExample fuel e ds) ds (fuel+1) es [] with
        | .error e => .error e
        | .ok fs => .ok (Json.obj fs))
      | .cnone => .error (.jsError "TypeError: cannot read slice of undefined")
      | _ => .error (.jsError "TypeError: content has no slice")
    else
      match dsLookup ds root.element with
      | some refEl =>
        (match inherit refEl root with
        | .error e => .error e
        | .ok combined => renderExample fuel combined ds)
      | Option.none => .ok Json.undefined

/-- The field-dropping `JSON.stringify` applies to an object whose field
value is `undefined` (one level): such keys are omitted from the
serialized output, which is how an unresolved named type leaves no trace
in the rendered example body. -/
def dropUndefFields (fs : List (String × Json)) : List (String × Json) :=
  fs.filter (fun kv => match kv.2 with | .undefined => false | _ => true)

mutual
theorem Json.eqb_refl (a : Json) : Json.eqb a a = true := by
  cases a with
  | null => simp [Json.eqb]
  | undefined => simp [Json.eqb]
  | bool b => simp [Json.eqb]
  | num n => simp [Json.eqb]
  | str s => simp [Json.eqb]
  | arr l => simpa [Json.eqb] using Json.eqbList_refl l
  | obj fs => simpa [Json.eqb] using Json.eqbFields_refl fs
termination_by sizeOf a

theorem Json.eqbList_refl (l : List Json) : Json.eqbList l l = true := by
  cases l with
  | nil => simp [Json.eqbList]
  | cons h t => simp [Json.eqbList, Json.eqb_refl h, Json.eqbList_refl t]
termination_by sizeOf l

theorem Json.eqbFields_refl (fs : List (String × Json)) : Json.eqbFields fs fs = true := by
  cases fs with
  | nil => simp [Json.eqbFields]
  | cons h t =>
    cases h with
    | mk k v => simp [Json.eqbFields, Json.eqb_refl v, Json.eqbFields_refl t]
termination_by sizeOf fs
end

theorem deepEqualJson_refl (a : Json) : deepEqualJson a a = true := by
  simp [deepEqualJson, Json.eqb_refl]

theorem lookupField_setField_ne (fs : List (String × Json)) (k k2 : String) (v : Json)
    (h : k2 ≠ k) : lookupField (setField fs k v) k2 = lookupField fs k2 := by
  have hne : (k == k2) = false := by simpa using Ne.symm h
  induction fs with
  | nil => simp [setField, lookupField, hne]
  | cons hd tl ih =>
    obtain ⟨k3, w⟩ := hd
    by_cases h3 : k3 == k
    · simp only [beq_iff_eq] at h3
      subst h3
      simp [setField, lookupField, hne]
    · simp only [setField, lookupField, h3, Bool.false_eq_true, if_neg, not_false_iff]
      by_cases h4 : k3 == k2
      · simp [lookupField, h4]
      · simp [lookupField, h4, ih]

theorem getField_setKey_ne (fs : List (String × Json)) (k k2 : String) (v : Json)
    (h : k2 ≠ k) : (Json.setKey (.obj fs) k v).getField k2 = (Json.obj fs).getField k2 := by
  simp [Json.setKey, Json.getField, lookupField_setField_ne fs k k2 v h]

theorem descStep_obj (root : Element) (fs : List (String × Json)) :
    ∃ fs2, descStep root (.obj fs) = Json.obj fs2 ∧
      ∀ k, k ≠ "description" → lookupField fs2 k = lookupField fs k := by
  unfold descStep
  split
  · split
    · split
      · exact ⟨fs, rfl, fun _ _ => rfl⟩
      · exact ⟨setField fs "description" _, rfl,
          fun k hk => lookupField_setField_ne fs "description" k _ hk⟩
    · exact ⟨fs, rfl, fun _ _ => rfl⟩
  · exact ⟨fs, rfl, fun _ _ => rfl⟩

theorem nullableStep_obj (root : Element) (fs : List (String × Json)) (s : Json)
    (h : nullableStep root (.obj fs) = .ok s) :
    ∃ fs2, s = Json.obj fs2 ∧
      ∀ k, k ≠ "type" → lookupField fs2 k = lookupField fs k := by
  unfold nullableStep at h
  split at h
  · split at h
    · split at h
      · split at h
        · exact Except.noConfusion h
        · rw [Except.ok.injEq] at h
          split at h
          · exact ⟨_, h.symm, fun k hk => lookupField_setField_ne fs "type" k _ hk⟩
          · exact ⟨fs, h.symm, fun _ _ => rfl⟩
      · rw [Except.ok.injEq] at h
        exact ⟨fs, h.symm, fun _ _ => rfl⟩
    · rw [Except.ok.injEq] at h
      exact ⟨fs, h.symm, fun _ _ => rfl⟩
  · rw [Except.ok.injEq] at h
    exact ⟨fs, h.symm, fun _ _ => rfl⟩

/-- The post-switch steps of `renderSchema` only touch the `description`
and `type` fields of an object schema. -/
theorem postSchema_getField (root : Element) (fs : List (String × Json)) (s : Json)
    (k : String) (hd : k ≠ "description") (ht : k ≠ "type")
    (h : postSchema root (.obj fs) = .ok s) :
    s.getField k = (Json.obj fs).getField k := by
  unfold postSchema at h
  obtain ⟨fs1, he, hpres⟩ := descStep_obj root fs
  rw [he] at h
  obtain ⟨fs2, he2, hpres2⟩ := nullableStep_obj root fs1 s h
  rw [he2]
  simp only [Json.getField]
  rw [hpres2 k ht, hpres k hd]

theorem collapseGo_all_eq (a : Json) (tl : List Json) (h : ∀ x ∈ tl, x = a) :
    collapseGo a tl = some a := by
  induction tl with
  | nil => rfl
  | cons b t ih =>
    have hb : b = a := h b (List.mem_cons_self b t)
    subst hb
    simp only [collapseGo, deepEqualJson_refl, if_pos]
    exact ih (fun x hx => h x (List.mem_cons_of_mem b hx))

theorem collapseGo_not_chain (a : Json) (tl : List Json)
    (h : ¬ List.Chain' (fun x y => deepEqualJson x y = true) (a :: tl)) :
    collapseGo a tl = Option.none := by
  induction tl generalizing a with
  | nil => exact absurd (List.chain'_singleton a) h
  | cons b t ih =>
    by_cases hab : deepEqualJson a b = true
    · simp only [collapseGo, hab, if_pos]
      exact ih b (fun hc => h (List.chain'_cons.mpr ⟨hab, hc⟩))
    · simp [collapseGo, hab]

/-- A bare `string` type element (`{element: "string"}`). -/
def strTypeEl : Element := .mk "string" Option.none Option.none .cnone

/-- A bare `number` type element (`{element: "number"}`). -/
def numTypeEl : Element := .mk "number" Option.none Option.none .cnone

/-- The key element of a member: a `string` element whose content is the
key name. -/
def strKeyEl (s : String) : Element := .mk "string" Option.none Option.none (.scalar (.str s))

/-- A plain object member `key: value`. -/
def memberEl (k : String) (v : Element) : Element :=
  .mk "member" Option.none Option.none (.memb (strKeyEl k) v)

/-- An object member carrying `typeAttributes: ["required"]`. -/
def memberReqEl (k : String) (v : Element) : Element :=
  .mk "member" Option.none (some [("typeAttributes", Json.arr [.str "required"])])
    (.memb (strKeyEl k) v)

/-- An `option` element holding a member group. -/
def optionEl (ms : List Element) : Element := .mk "option" Option.none Option.none (.list ms)

/-- Claim C2: the claim asserts that when neither content is
collection-shaped, `resolve(base, derived)` returns derived's content and
does not fail.  The source instead reaches `combine.content =
element.content` (`src/inherit.js` line 82), an assignment to the
misspelled, undeclared identifier `combine`, which throws a
ReferenceError: merging a scalar `string` content over a scalar `string`
content fails rather than overwriting, contradicting the comment directly
above the line ("Not an array or object, just overwrite the content"). -/
theorem inherit_scalar_overwrite_referenceError :
    inherit (Element.mk "string" Option.none Option.none (.scalar (.str "a")))
        (Element.mk "string" Option.none Option.none (.scalar (.str "b")))
      = .error (.jsError "ReferenceError: combine is not defined") := by
  rfl

/-- Claim C3: the claim asserts that resolving `derived` against `base`
when both declare member key `"id"` keeps exactly one `"id"` member.  On
the example documented in the header comment of `src/inherit.js` itself
(base `My Type` with members `id`, `name`; derived with member `id`), the
dedup pass crashes instead: after `splice(i, 1)` the loop `continue`s
without decrementing `i`, so it re-examines the already-kept member that
shifted into position `i`, finds its key in `known`, removes it too, and
cascades until it reads `content[i]` past the start of the shrunken
array, throwing a TypeError on `undefined.element`. -/
theorem inherit_id_override_crashes :
    inherit
        (Element.mk "object" Option.none Option.none
          (.list [memberEl "id" numTypeEl, memberEl "name" strTypeEl]))
        (Element.mk "object" Option.none Option.none (.list [memberEl "id" strTypeEl]))
      = .error (.jsError "TypeError: cannot read element of undefined") := by
  rfl

/-- Claim C5: the spec's end-to-end example.  With symbol table
`Base -> object [member id: number]` and root of kind `Base` with content
`[member id: string (required)]`, the claim asserts `renderSchema` yields
`(type: object, properties: (id: (type: string)), required: [id])`.  The
code instead throws: the named-type case resolves `inherit(Base, root)`,
whose content merge concatenates the two `id` members and calls
`uniqueMembers`, which crashes on the duplicate key exactly as in
`inherit_id_override_crashes` (missing index decrement after `splice`). -/
theorem renderSchema_end_to_end_crashes :
    renderSchema 9
        (Element.mk "Base" Option.none Option.none (.list [memberReqEl "id" strTypeEl]))
        [("Base", Element.mk "object" Option.none Option.none (.list [memberEl "id" numTypeEl]))]
      = .error (.jsError "TypeError: cannot read element of undefined") := by
  rfl

/-- Claim C1, counterexample: an object whose sole member is a `ref` to an
href absent from the symbol table.  The claim asserts both renderers skip
the member silently and complete; instead both fail, because
`dataStructures[member.content.href]` is `undefined` and reading
`ref.content` for the splice throws a TypeError (`src/example.js` lines
50-54, schema renderer lines 65-69). -/
theorem unresolved_ref_not_skipped :
    renderSchema 5
        (Element.mk "object" Option.none Option.none
          (.list [Element.mk "ref" Option.none Option.none (.href "Missing")])) []
      = .error (.jsError "TypeError: cannot read content of undefined") ∧
    renderExample 5
        (Element.mk "object" Option.none Option.none
          (.list [Element.mk "ref" Option.none Option.none (.href "Missing")])) []
      = .error (.jsError "TypeError: cannot read content of undefined") := by
  exact ⟨rfl, rfl⟩

/-- Claim C1, amended: for every object element whose member walk reaches a
`ref` member whose target href is absent from the symbol table (here: the
ref is the first member), both `renderSchema` and `renderExample` throw a
TypeError reading `.content` of the failed lookup; the failure propagates
and aborts that render instead of the member being skipped. -/
theorem unresolved_ref_aborts_render (fuel : Nat) (ds : SymTab) (t : String)
    (m a rm ra : Option (List (String × Json))) (rest : List Element)
    (h : dsLookup ds t = Option.none) :
    renderSchema (fuel+1)
        (Element.mk "object" m a (.list (Element.mk "ref" rm ra (.href t) :: rest))) ds
      = .error (.jsError "TypeError: cannot read content of undefined") ∧
    renderExample (fuel+1)
        (Element.mk "object" m a (.list (Element.mk "ref" rm ra (.href t) :: rest))) ds
      = .error (.jsError "TypeError: cannot read content of undefined") := by
  constructor
  · simp [renderSchema, Element.element, Element.content, schemaMembers, h]
  · simp [renderExample, Element.element, Element.content, exampleMembers, h]

/-- Witness for `unresolved_ref_aborts_render` at a concrete input. -/
theorem unresolved_ref_aborts_render_witness :
    dsLookup [("Other", strTypeEl)] "Missing" = Option.none ∧
    renderSchema 4
        (Element.mk "object" Option.none Option.none
          (.list [Element.mk "ref" Option.none Option.none (.href "Missing")]))
        [("Other", strTypeEl)]
      = .error (.jsError "TypeError: cannot read content of undefined") :=
  ⟨rfl, (unresolved_ref_aborts_render 3 [("Other", strTypeEl)] "Missing"
      Option.none Option.none Option.none Option.none [] rfl).1⟩

/-- Claim C10: `renderExample` on an `enum` recurses unconditionally into
`root.content[0]` (`src/example.js` line 38), so with a non-empty content
list it renders the first choice; with an empty or absent content the
access has no defined result (the recursive call receives `undefined`, or
`undefined[0]` itself throws), modelled as a TypeError.  `renderSchema`'s
enum case instead guards with `Array.from(root.content || [])` and yields
`(enum: [])` for both the empty and the absent content. -/
theorem renderExample_enum_first (fuel : Nat) (ds : SymTab) (x : Element)
    (xs : List Element) (m a : Option (List (String × Json))) :
    renderExample (fuel+1) (Element.mk "enum" m a (.list (x :: xs))) ds
      = renderExample fuel x ds ∧
    renderExample (fuel+1) (Element.mk "enum" m a (.list [])) ds
      = .error (.jsError "TypeError: cannot read element of undefined") ∧
    renderExample (fuel+1) (Element.mk "enum" m a .cnone) ds
      = .error (.jsError "TypeError: cannot read element of undefined") ∧
    renderSchema (fuel+1) (Element.mk "enum" Option.none Option.none (.list [])) ds
      = .ok (Json.obj [("enum", Json.arr [])]) ∧
    renderSchema (fuel+1) (Element.mk "enum" Option.none Option.none .cnone) ds
      = .ok (Json.obj [("enum", Json.arr [])]) := by
  refine ⟨?_, ?_, ?_, ?_, ?_⟩ <;>
    simp [renderExample, renderSchema, Element.element, Element.content, Element.meta,
      Element.attributes, jsArrayFromContent, postSchema, descStep, nullableStep]

/-- Claim C4: an element whose kind is a bare name with no symbol-table
entry.  `renderSchema`'s default case leaves the schema `()` (the lookup
fails, nothing is assigned), `renderExample`'s default case falls through
and returns JS `undefined`; an object member whose value is such an
element therefore stores `undefined` under its key, and `JSON.stringify`
drops that key from the serialized example, so the key gets no rendered
value; no error is raised anywhere. -/
theorem unresolved_named_degrades (fuel : Nat) (ds : SymTab) (n k : String)
    (m a : Option (List (String × Json))) (c : ContentF Element)
    (h1 : n ≠ "boolean") (h2 : n ≠ "string") (h3 : n ≠ "number") (h4 : n ≠ "enum")
    (h5 : n ≠ "array") (h6 : n ≠ "object") (h7 : n ≠ "option")
    (hds : dsLookup ds n = Option.none) :
    renderSchema (fuel+1) (Element.mk n Option.none Option.none c) ds = .ok (Json.obj []) ∧
    renderExample (fuel+1) (Element.mk n m a c) ds = .ok Json.undefined ∧
    renderExample (fuel+2)
        (Element.mk "object" Option.none Option.none
          (.list [Element.mk "member" Option.none Option.none
            (.memb (strKeyEl k) (Element.mk n m a c))])) ds
      = .ok (Json.obj [(k, Json.undefined)]) ∧
    dropUndefFields [(k, Json.undefined)] = [] := by
  have e1 : (n == "boolean") = false := beq_eq_false_iff_ne.mpr h1
  have e2 : (n == "string") = false := beq_eq_false_iff_ne.mpr h2
  have e3 : (n == "number") = false := beq_eq_false_iff_ne.mpr h3
  have e4 : (n == "enum") = false := beq_eq_false_iff_ne.mpr h4
  have e5 : (n == "array") = false := beq_eq_false_iff_ne.mpr h5
  have e6 : (n == "object") = false := beq_eq_false_iff_ne.mpr h6
  have e7 : (n == "option") = false := beq_eq_false_iff_ne.mpr h7
  have hex : renderExample (fuel+1) (Element.mk n m a c) ds = .ok Json.undefined := by
    simp [renderExample, Element.element, e1, e2, e3, e4, e5, e6, hds]
  refine ⟨?_, hex, ?_, ?_⟩
  · simp [renderSchema, Element.element, Element.meta, Element.attributes,
      e1, e2, e3, e4, e5, e6, e7, hds, postSchema, descStep, nullableStep]
  · simp [renderExample, Element.element, Element.content, exampleMembers, strKeyEl,
      jsKeyString, setField, h1, h2, h3, h4, h5, h6, hds]
  · rfl

/-- Witness for `unresolved_named_degrades` at a concrete input. -/
theorem unresolved_named_degrades_witness :
    renderSchema 3 (Element.mk "Whatever" Option.none Option.none .cnone) []
      = .ok (Json.obj []) ∧
    renderExample 4
        (Element.mk "object" Option.none Option.none
          (.list [Element.mk "member" Option.none Option.none
            (.memb (strKeyEl "w") (Element.mk "Whatever" Option.none Option.none .cnone))])) []
      = .ok (Json.obj [("w", Json.undefined)]) := by
  have h := unresolved_named_degrades 2 [] "Whatever" "w" Option.none Option.none .cnone
    (by decide) (by decide) (by decide) (by decide) (by decide) (by decide) (by decide) rfl
  exact ⟨h.1, h.2.2.1⟩

theorem arrayItemsSchema_obj (items : List Json) :
    ∃ fs, arrayItemsSchema items = Json.obj fs := by
  unfold arrayItemsSchema
  split
  · exact ⟨_, rfl⟩
  · exact ⟨_, rfl⟩
  · split
    · exact ⟨_, rfl⟩
    · exact ⟨_, rfl⟩

/-- Claim C6: the `items` computation of `renderSchema` on an array
element.  With `items` the child schemas in child order: a single child
becomes `items` directly (no equality check involved); identical child
schemas collapse to that single schema; if some neighbouring pair of
child schemas is not deepEqual (with deepEqual an equivalence this is
exactly "at least one child schema differs"), the reduce throws, the
catch sets `items` to `anyOf` over all child schemas, in child order and
with exactly as many entries as children. -/
theorem renderSchema_array_eq (fuel : Nat) (ds : SymTab)
    (m a : Option (List (String × Json))) (cs : List Element) (items : List Json)
    (hmap : List.mapM (fun c => renderSchema fuel c ds) cs = .ok items) :
    renderSchema (fuel+1) (Element.mk "array" m a (.list cs)) ds
      = postSchema (Element.mk "array" m a (.list cs)) (arrayItemsSchema items) := by
  rw [renderSchema.eq_def]
  simp only [Element.element, Element.content, jsArrayFromContent]
  rw [hmap]
  simp

theorem renderSchema_array_items (fuel : Nat) (ds : SymTab)
    (m a : Option (List (String × Json))) (cs : List Element) (items : List Json) (s : Json)
    (hmap : List.mapM (fun c => renderSchema fuel c ds) cs = .ok items)
    (hrun : renderSchema (fuel+1) (Element.mk "array" m a (.list cs)) ds = .ok s) :
    (∀ x, items = [x] → s.getField "items" = some x) ∧
    (∀ x tl, items = x :: tl → (∀ y ∈ tl, y = x) → s.getField "items" = some x) ∧
    (2 ≤ items.length →
      ¬ List.Chain' (fun x y => deepEqualJson x y = true) items →
      s.getField "items" = some (Json.obj [("anyOf", Json.arr items)])) := by
  rw [renderSchema_array_eq fuel ds m a cs items hmap] at hrun
  obtain ⟨fs, hfs⟩ := arrayItemsSchema_obj items
  rw [hfs] at hrun
  have hitems : s.getField "items" = (arrayItemsSchema items).getField "items" := by
    rw [hfs]
    exact postSchema_getField _ fs s "items" (by decide) (by decide) hrun
  refine ⟨?_, ?_, ?_⟩
  · rintro x rfl
    rw [hitems]
    simp [arrayItemsSchema, Json.setKey, setField, Json.getField, lookupField]
  · rintro x tl rfl hall
    rw [hitems]
    cases tl with
    | nil => simp [arrayItemsSchema, Json.setKey, setField, Json.getField, lookupField]
    | cons y t =>
      have hcol : collapseGo x (y :: t) = some x := collapseGo_all_eq x (y :: t) hall
      simp [arrayItemsSchema, hcol, Json.setKey, setField, Json.getField, lookupField]
  · intro hlen hchain
    match items, hitems, hchain, hlen with
    | x :: y :: t, hitems, hchain, hlen =>
      have hcol : collapseGo x (y :: t) = Option.none := collapseGo_not_chain x (y :: t) hchain
      rw [hitems]
      simp [arrayItemsSchema, hcol, Json.setKey, setField, Json.getField, lookupField]

/-- Witness for `renderSchema_array_items` at a concrete input: an array
with one `string` child; its schema becomes `items` directly. -/
theorem renderSchema_array_items_witness :
    List.mapM (fun c => renderSchema 3 c []) [strTypeEl]
      = .ok [Json.obj [("type", Json.str "string")]] ∧
    renderSchema 4 (Element.mk "array" Option.none Option.none (.list [strTypeEl])) []
      = .ok (Json.obj [("type", Json.str "array"),
          ("items", Json.obj [("type", Json.str "string")])]) ∧
    (Json.obj [("type", Json.str "array"),
        ("items", Json.obj [("type", Json.str "string")])]).getField "items"
      = some (Json.obj [("type", Json.str "string")]) :=
  ⟨rfl, rfl,
    (renderSchema_array_items 3 [] Option.none Option.none [strTypeEl]
        [Json.obj [("type", Json.str "string")]]
        (Json.obj [("type", Json.str "array"),
          ("items", Json.obj [("type", Json.str "string")])])
        rfl rfl).1 (Json.obj [("type", Json.str "string")]) rfl⟩

/-- The `properties` object of a rendered option schema, as the `for key
in optionSchema.properties` loop sees it (absent or non-object iterates
zero keys). -/
def optionPropsOf (j : Json) : List (String × Json) :=
  match j.getField "properties" with
  | some (.obj fs) => fs
  | _ => []

/-- Copy a list of properties into a properties object in order, later
entries overwriting colliding keys. -/
def addProps : List (String × Json) → List (String × Json) → List (String × Json)
  | props, [] => props
  | props, (k, v) :: rest => addProps (setField props k v) rest

/-- All options' properties copied into one shared properties object in
option order (later options overwrite colliding keys). -/
def mergeOptionProps : List (String × Json) → List Json → List (String × Json)
  | props, [] => props
  | props, o :: rest => mergeOptionProps (addProps props (optionPropsOf o)) rest

/-- The `exclusive` array a `select` member accumulates: the concatenation
of every option's property names, in option order, a name repeated once
per option that declares it. -/
def optionKeysConcat (oss : List Json) : List String :=
  (oss.map (fun o => (optionPropsOf o).map Prod.fst)).flatten

theorem addOptionProps_spec (pfs props : List (String × Json)) (excl : List String) :
    addOptionProps pfs props excl = (addProps props pfs, excl ++ pfs.map Prod.fst) := by
  induction pfs generalizing props excl with
  | nil => simp [addOptionProps, addProps]
  | cons hd tl ih =>
    obtain ⟨k, v⟩ := hd
    simp [addOptionProps, addProps, ih]

theorem selectFold_spec (rS : Element → Except RErr Json) (opts : List Element)
    (oss : List Json) (props : List (String × Json)) (excl : List String)
    (hmap : List.mapM rS opts = .ok oss) :
    selectFold rS opts props excl
      = .ok (mergeOptionProps props oss, excl ++ optionKeysConcat oss) := by
  induction opts generalizing oss props excl with
  | nil =>
    simp only [List.mapM_nil, pure, Except.pure, Except.ok.injEq] at hmap
    subst hmap
    simp [selectFold, mergeOptionProps, optionKeysConcat]
  | cons o rest ih =>
    rw [List.mapM_cons] at hmap
    cases h1 : rS o with
    | error e => rw [h1] at hmap; exact Except.noConfusion hmap
    | ok os1 =>
      rw [h1] at hmap
      cases h2 : List.mapM rS rest with
      | error e =>
        rw [h2] at hmap
        exact Except.noConfusion hmap
      | ok osr =>
        rw [h2] at hmap
        simp only [bind, Except.bind, pure, Except.pure, Except.ok.injEq] at hmap
        subst hmap
        simp only [selectFold, h1, addOptionProps_spec]
        rw [ih osr _ _ h2]
        simp [mergeOptionProps, optionKeysConcat, optionPropsOf]

/-- Claim C7, amended: for an object whose content is one `select`
(option-set) member, `renderSchema` copies every option's properties into
the shared properties map in option order (later options overwriting
colliding keys) and appends exactly one `not required` clause to `allOf`
whose list is the concatenation of every option's property names in
option order -- a name repeated once per option that declares it, rather
than a duplicate-free union. -/
theorem renderSchema_select_allOf (fuel : Nat) (ds : SymTab)
    (m a sm sa : Option (List (String × Json))) (opts : List Element)
    (oss : List Json) (s : Json)
    (hmap : List.mapM (fun o => renderSchema fuel o ds) opts = .ok oss)
    (hrun : renderSchema (fuel+1)
        (Element.mk "object" m a (.list [Element.mk "select" sm sa (.list opts)])) ds
      = .ok s) :
    s.getField "allOf" = some (Json.arr [Json.obj [("not",
        Json.obj [("required", Json.arr ((optionKeysConcat oss).map Json.str))])]]) ∧
    s.getField "properties" = some (Json.obj (mergeOptionProps [] oss)) := by
  have hsel := selectFold_spec (fun e => renderSchema fuel e ds) opts oss [] [] hmap
  have hcore : renderSchema (fuel+1)
      (Element.mk "object" m a (.list [Element.mk "select" sm sa (.list opts)])) ds
      = postSchema (Element.mk "object" m a (.list [Element.mk "select" sm sa (.list opts)]))
          (objectSchemaOf
            { props := mergeOptionProps [] oss, required := [],
              allOf := some [Json.obj [("not",
                Json.obj [("required", Json.arr ((optionKeysConcat oss).map Json.str))])]] }) := by
    rw [renderSchema.eq_def]
    simp [Element.element, Element.content, schemaMembers, hsel]
  rw [hcore] at hrun
  have hobj : objectSchemaOf
      { props := mergeOptionProps [] oss, required := [],
        allOf := some [Json.obj [("not",
          Json.obj [("required", Json.arr ((optionKeysConcat oss).map Json.str))])]] }
      = Json.obj [("type", Json.str "object"),
          ("properties", Json.obj (mergeOptionProps [] oss)),
          ("allOf", Json.arr [Json.obj [("not",
            Json.obj [("required", Json.arr ((optionKeysConcat oss).map Json.str))])]])] := by
    simp [objectSchemaOf]
  rw [hobj] at hrun
  constructor
  · rw [postSchema_getField _ _ s "allOf" (by decide) (by decide) hrun]
    simp [Json.getField, lookupField]
  · rw [postSchema_getField _ _ s "properties" (by decide) (by decide) hrun]
    simp [Json.getField, lookupField]

/-- Witness for `renderSchema_select_allOf`: one option-set with options
declaring `a` and `b` yields `properties.a`, `properties.b`, and `allOf`
equal to the single clause requiring not-both of `a`, `b` -- the claim's
canonical example. -/
theorem renderSchema_select_allOf_witness :
    renderSchema 4
        (Element.mk "object" Option.none Option.none
          (.list [Element.mk "select" Option.none Option.none
            (.list [optionEl [memberEl "a" strTypeEl], optionEl [memberEl "b" strTypeEl]])])) []
      = .ok (Json.obj [("type", Json.str "object"),
          ("properties", Json.obj [("a", Json.obj [("type", Json.str "string")]),
            ("b", Json.obj [("type", Json.str "string")])]),
          ("allOf", Json.arr [Json.obj [("not",
            Json.obj [("required", Json.arr [Json.str "a", Json.str "b"])])]])]) ∧
    (Json.obj [("type", Json.str "object"),
        ("properties", Json.obj [("a", Json.obj [("type", Json.str "string")]),
          ("b", Json.obj [("type", Json.str "string")])]),
        ("allOf", Json.arr [Json.obj [("not",
          Json.obj [("required", Json.arr [Json.str "a", Json.str "b"])])]])]).getField "allOf"
      = some (Json.arr ((optionKeysConcat
          [Json.obj [("type", Json.str "object"),
            ("properties", Json.obj [("a", Json.obj [("type", Json.str "string")])])],
           Json.obj [("type", Json.str "object"),
            ("properties", Json.obj [("b", Json.obj [("type", Json.str "string")])])]]).map Json.str
        |> fun l => [Json.obj [("not", Json.obj [("required", Json.arr l)])]])) :=
  ⟨rfl,
    (renderSchema_select_allOf 3 [] Option.none Option.none Option.none Option.none
      [optionEl [memberEl "a" strTypeEl], optionEl [memberEl "b" strTypeEl]]
      [Json.obj [("type", Json.str "object"),
        ("properties", Json.obj [("a", Json.obj [("type", Json.str "string")])])],
       Json.obj [("type", Json.str "object"),
        ("properties", Json.obj [("b", Json.obj [("type", Json.str "string")])])]]
      _ rfl rfl).1⟩

/-- Claim C7, counterexample: two options that both declare the property
`k`.  The claim says the appended clause holds the union of all option
property names, which would list `k` once; the code pushes every option's
keys without deduplication, so the clause's required list is
`["k", "k"]`, which is not duplicate-free. -/
theorem renderSchema_select_union_counterexample :
    renderSchema 4
        (Element.mk "object" Option.none Option.none
          (.list [Element.mk "select" Option.none Option.none
            (.list [optionEl [memberEl "k" strTypeEl], optionEl [memberEl "k" numTypeEl]])])) []
      = .ok (Json.obj [("type", Json.str "object"),
          ("properties", Json.obj [("k", Json.obj [("type", Json.str "number")])]),
          ("allOf", Json.arr [Json.obj [("not",
            Json.obj [("required", Json.arr [Json.str "k", Json.str "k"])])]])]) ∧
    ¬ List.Nodup ["k", "k"] :=
  ⟨rfl, by decide⟩

/-- Claim C8: the example renderer resolves an option-set member by taking
the first member of its first option (`member.content[0].content[0]`),
so only that first option contributes to the output: for an object whose
content is one `select`, the rendered example is exactly the first
option's first member under its key, and no key declared by any later
option (or later member of the first option) appears. -/
theorem renderExample_select_first (fuel : Nat) (ds : SymTab)
    (m a sm sa om oa mm ma2 : Option (List (String × Json)))
    (ok1 mk1 : String) (kEl vEl : Element) (k : String) (v : Json)
    (ms os : List Element)
    (hk : kEl.content = .scalar (.str k))
    (hv : renderExample fuel vEl ds = .ok v) :
    renderExample (fuel+1)
        (Element.mk "object" m a
          (.list [Element.mk "select" sm sa
            (.list (Element.mk ok1 om oa
              (.list (Element.mk mk1 mm ma2 (.memb kEl vEl) :: ms)) :: os))])) ds
      = .ok (Json.obj [(k, v)]) := by
  obtain ⟨kk, kkm, kka, kc⟩ := kEl
  simp only [Element.content] at hk
  subst hk
  rw [renderExample.eq_def]
  simp [Element.element, Element.content, exampleMembers, hv, jsKeyString, setField]

/-- Witness for `renderExample_select_first` at the claim's canonical
input: options `(a)` and `(b)`; only `a` appears, `b` is absent. -/
theorem renderExample_select_first_witness :
    renderExample 4
        (Element.mk "object" Option.none Option.none
          (.list [Element.mk "select" Option.none Option.none
            (.list [optionEl [memberEl "a" strTypeEl], optionEl [memberEl "b" strTypeEl]])])) []
      = .ok (Json.obj [("a", Json.str "Hello, world!")]) :=
  renderExample_select_first 3 [] Option.none Option.none Option.none Option.none
    Option.none Option.none Option.none Option.none "option" "member"
    (strKeyEl "a") strTypeEl "a" (Json.str "Hello, world!")
    [] [optionEl [memberEl "b" strTypeEl]] rfl rfl
